import Mathlib

/-
Shallow embedding of the mailman repository's rule engine and action planner.

Sources embedded:
  * src/mailman_components/rule_engine.py
      (_normalize_string, _check_string_condition, _check_date_condition, evaluate_email)
  * src/main_process_emails.py (apply_actions)
  * src/mailman_components/gmail_client.py (the standard-label table of get_label_id_by_name)

Modelling conventions:
  * A Python `str` is a list of Unicode code points (`PyStr := List Nat`); `.lower()`,
    `.upper()` and `.strip()` are embedded over the ASCII ranges they act on for this
    repository's data.
  * A nullable value (a column that may hold SQL NULL / Python None) is an `Option`.
  * A Python `datetime` is its UTC instant in microseconds (an `Int`); the code's
    timezone normalisation (aware -> astimezone(utc), naive -> assume UTC) maps every
    datetime to exactly such an instant, so it is the identity in this model.
  * A raised `RuleConditionError` is the `Except.error` branch of
    `Except RuleConditionError Bool`; Python's try/except becomes a `match`.
  * External library calls (email.utils.parseaddr, json.loads, str(), dateutil's
    isoparse and relativedelta) are collaborator functions gathered in `Collab` and
    passed in as parameters, mirroring the spec's "external collaborator" boundary.
-/

/-- A Python string, as its sequence of code points. -/
abbrev PyStr := List Nat

/-- Code points of a Lean string literal, used to embed Python string literals. -/
def pys (s : String) : PyStr := s.data.map Char.toNat

/-- Python `str.isspace`-style whitespace test, over the ASCII whitespace code points
(tab, LF, VT, FF, CR, space) that `str.strip()` removes. -/
def pyIsSpace (n : Nat) : Bool := n == 32 || n == 9 || n == 10 || n == 11 || n == 12 || n == 13

/-- Python `str.lower()` on one code point (ASCII range, which is what the rule data uses). -/
def lowerNat (n : Nat) : Nat := if 65 ≤ n ∧ n ≤ 90 then n + 32 else n

/-- Python `str.upper()` on one code point (ASCII range). -/
def upperNat (n : Nat) : Nat := if 97 ≤ n ∧ n ≤ 122 then n - 32 else n

/-- Python `str.lower()`. -/
def pyLower (s : PyStr) : PyStr := s.map lowerNat

/-- Python `str.upper()`. -/
def pyUpper (s : PyStr) : PyStr := s.map upperNat

/-- Python `str.strip()`: drop leading and trailing whitespace. -/
def pyStrip (s : PyStr) : PyStr :=
  ((s.dropWhile pyIsSpace).reverse.dropWhile pyIsSpace).reverse

/-- Python `needle in hay` on strings: contiguous-substring test (true for an empty
needle, matching Python). -/
def pyInStr (needle : PyStr) : PyStr → Bool
  | [] => needle.isPrefixOf []
  | c :: rest => needle.isPrefixOf (c :: rest) || pyInStr needle rest

/-- rule_engine.RuleConditionError: the typed error raised by predicate evaluation. -/
structure RuleConditionError where
  msg : String
deriving DecidableEq, Repr

/-- rule_engine._normalize_string: `str(text).lower().strip() if text is not None else ""`. -/
def _normalize_string (text : Option PyStr) : PyStr :=
  match text with
  | some s => pyStrip (pyLower s)
  | none => []

/-- rule_engine._check_string_condition: string predicate dispatch over normalized
values; unsupported predicate names raise `RuleConditionError`. -/
def _check_string_condition (email_value : Option PyStr) (predicate : PyStr)
    (rule_value : Option PyStr) : Except RuleConditionError Bool :=
  let norm_email_value := _normalize_string email_value
  let norm_rule_value := _normalize_string rule_value
  if predicate = pys "contains" then
    .ok (pyInStr norm_rule_value norm_email_value)
  else if predicate = pys "does_not_contain" then
    .ok (!(pyInStr norm_rule_value norm_email_value))
  else if predicate = pys "equals" then
    .ok (norm_email_value == norm_rule_value)
  else if predicate = pys "does_not_equal" then
    .ok (!(norm_email_value == norm_rule_value))
  else
    .error ⟨"Unsupported string predicate"⟩

/-- A parsed JSON value, as far as the rule engine inspects one (a string, a list,
or anything else — the code only distinguishes those three shapes). -/
inductive Json where
  | str (s : PyStr)
  | arr (items : List Json)
  | other

/-- External collaborator functions used by the rule engine (standard library /
third-party calls, outside this repository's code):
`parseaddr` is email.utils.parseaddr returning a (display-name, address) pair;
`json_loads` is json.loads (`none` models a raised JSONDecodeError);
`str_of` is Python `str()` on a non-string JSON item;
`isoparse` is dateutil.parser.isoparse (`none` models a raised ValueError);
`sub_months n v` is `n - relativedelta(months=v)` in UTC microseconds. -/
structure Collab where
  parseaddr : PyStr → PyStr × PyStr
  json_loads : PyStr → Option Json
  str_of : Json → PyStr
  isoparse : PyStr → Option Int
  sub_months : Int → Int → Int

/-- Microseconds in `timedelta(days=1)`. -/
def usPerDay : Int := 86400000000

/-- ASCII decimal digit test. -/
def isDigitNat (n : Nat) : Bool := decide (48 ≤ n ∧ n ≤ 57)

/-- Value of an ASCII digit string. -/
def digitsToNat (l : List Nat) : Nat := l.foldl (fun acc d => acc * 10 + (d - 48)) 0

/-- Unsigned part of Python `int(str)`: nonempty all-digit string. -/
def pyIntCore (l : List Nat) : Option Int :=
  if !l.isEmpty && l.all isDigitNat then some (Int.ofNat (digitsToNat l)) else none

/-- Python `int(str)` (`none` models a raised ValueError): surrounding whitespace
allowed, optional sign, decimal digits. -/
def pyInt (s : PyStr) : Option Int :=
  match pyStrip s with
  | [] => none
  | c :: rest =>
    if c = 43 then pyIntCore rest
    else if c = 45 then (pyIntCore rest).map (fun n => -n)
    else pyIntCore (c :: rest)

/-- The value a `received_datetime` attribute can hold: a datetime (a UTC instant in
microseconds), a string (re-parsed by the code via isoparse), or anything else. -/
inductive PyDateValue where
  | dt (t : Int)
  | str (s : PyStr)
  | other

/-- Numeric-value parse and predicate dispatch of rule_engine._check_date_condition,
after the timestamp has been normalised to a UTC instant `t`. -/
def _check_date_core (c : Collab) (t : Int) (predicate : PyStr) (rule_value_str : PyStr)
    (now_utc : Int) : Except RuleConditionError Bool :=
  match pyInt rule_value_str with
  | none => .error ⟨"Invalid numeric value for date condition"⟩
  | some value =>
    if predicate = pys "less_than_days" then
      .ok (decide (t > now_utc - value * usPerDay))
    else if predicate = pys "greater_than_days" then
      .ok (decide (t < now_utc - value * usPerDay))
    else if predicate = pys "less_than_months" then
      .ok (decide (t > c.sub_months now_utc value))
    else if predicate = pys "greater_than_months" then
      .ok (decide (t < c.sub_months now_utc value))
    else
      .error ⟨"Unsupported date predicate"⟩

/-- rule_engine._check_date_condition. A datetime value is already a UTC instant here
(the code's aware/naive → UTC normalisation is the identity on instants); a string is
re-parsed via isoparse; anything else raises. `now_utc` is the `datetime.now(timezone.utc)`
captured during this call. -/
def _check_date_condition (c : Collab) (email_datetime_value : PyDateValue) (predicate : PyStr)
    (rule_value_str : PyStr) (now_utc : Int) : Except RuleConditionError Bool :=
  match email_datetime_value with
  | .dt t => _check_date_core c t predicate rule_value_str now_utc
  | .str s =>
    match c.isoparse s with
    | some t => _check_date_core c t predicate rule_value_str now_utc
    | none => .error ⟨"Email date field is not a valid datetime object or ISO string"⟩
  | .other => .error ⟨"Email date field is not a datetime object"⟩


/-- Python truthiness of an optional string: false for None and for "". -/
def pyTruthy (s : Option PyStr) : Bool :=
  match s with
  | some l => !l.isEmpty
  | none => false

/-- One condition of a rule (a JSON object; absent keys are `none`). -/
structure Condition where
  field : Option PyStr
  predicate : Option PyStr
  value : Option PyStr

/-- A rule (a JSON object; absent keys are `none`, an absent conditions list is `[]`).
The actions list is consumed by the action planner, not by evaluate_email. -/
structure Rule where
  description : Option PyStr
  conditions_predicate : Option PyStr
  conditions : List Condition

/-- A record from the emails table (database_handler.Email). Only the columns the
rule evaluator reads carry values here; the remaining columns (id, message_id,
thread_id, body_html, snippet, labels, raw_headers) are never read by evaluate_email
— a condition naming them lands in its "Unhandled field type" branch — so only their
names appear, in `email_field_names`. -/
structure Email where
  from_address : Option PyStr
  to_addresses : Option PyStr
  cc_addresses : Option PyStr
  bcc_addresses : Option PyStr
  subject : Option PyStr
  body_plain : Option PyStr
  received_datetime : PyDateValue

/-- Attribute names of a database_handler.Email object (its mapped columns);
`hasattr(email_db_object, n)` holds exactly for these in the model. -/
def email_field_names : List PyStr :=
  [pys "id", pys "message_id", pys "thread_id", pys "from_address", pys "to_addresses",
   pys "cc_addresses", pys "bcc_addresses", pys "subject", pys "body_plain",
   pys "body_html", pys "received_datetime", pys "snippet", pys "labels", pys "raw_headers"]

/-- hasattr check of evaluate_email. -/
def email_hasattr (name : PyStr) : Bool := email_field_names.contains name

/-- Field-alias resolution of evaluate_email: maps a rule's field name (case-insensitively)
to the database column name, leaving unknown names unchanged. -/
def resolve_field_name (field_name_from_rule : PyStr) : PyStr :=
  let fl := pyLower field_name_from_rule
  if fl = pys "message" then pys "body_plain"
  else if fl = pys "from" then pys "from_address"
  else if fl = pys "date received" ∨ fl = pys "received date/time" then pys "received_datetime"
  else if fl = pys "to" then pys "to_addresses"
  else if fl = pys "cc" then pys "cc_addresses"
  else if fl = pys "bcc" then pys "bcc_addresses"
  else field_name_from_rule

/-- Extraction of the bare address from one item of a parsed address list
(evaluate_email's loop over `address_list`): a string item goes through parseaddr
with the raw item as fallback; a non-string item goes through `str()`. -/
def parse_address_item (c : Collab) : Json → PyStr
  | .str item =>
    let addr := (c.parseaddr item).2
    if !addr.isEmpty then addr else item
  | j => c.str_of j

/-- Quantified predicate application over a parsed address list (the
to/cc/bcc branch of evaluate_email): existential for equals/contains, universal for
does_not_equal/does_not_contain, error otherwise. `anyM`/`allM` over `Except`
short-circuit exactly like Python's `any`/`all` over a generator that may raise. -/
def check_address_list (c : Collab) (items : List Json) (predicate : PyStr)
    (rule_value : Option PyStr) : Except RuleConditionError Bool :=
  let parsed_address_list_emails_only := items.map (parse_address_item c)
  if predicate = pys "equals" ∨ predicate = pys "contains" then
    parsed_address_list_emails_only.anyM
      (fun addr_email_part => _check_string_condition (some addr_email_part) predicate rule_value)
  else if predicate = pys "does_not_equal" ∨ predicate = pys "does_not_contain" then
    parsed_address_list_emails_only.allM
      (fun addr_email_part => _check_string_condition (some addr_email_part) predicate rule_value)
  else
    .error ⟨"Unsupported predicate for address list field"⟩

/-- Body of evaluate_email's per-condition try block: dispatch on the resolved column
name. A `.ok false` embeds the code paths that set `condition_met = False` locally
(non-string address column, JSON decode failure, non-list JSON, unhandled field);
a `.error` embeds a raised RuleConditionError. -/
def eval_condition_body (c : Collab) (e : Email) (db_field_name : PyStr) (predicate : PyStr)
    (rule_value : PyStr) (now_utc : Int) : Except RuleConditionError Bool :=
  if db_field_name = pys "from_address" then
    let original := e.from_address
    let value_to_check_against_rule : Option PyStr :=
      match original with
      | some s =>
        if !s.isEmpty then
          let addr := (c.parseaddr s).2
          some (if !addr.isEmpty then addr else s)
        else original
      | none => original
    _check_string_condition value_to_check_against_rule predicate (some rule_value)
  else if db_field_name = pys "subject" then
    _check_string_condition e.subject predicate (some rule_value)
  else if db_field_name = pys "body_plain" then
    _check_string_condition e.body_plain predicate (some rule_value)
  else if db_field_name = pys "to_addresses" ∨ db_field_name = pys "cc_addresses"
      ∨ db_field_name = pys "bcc_addresses" then
    let original :=
      if db_field_name = pys "to_addresses" then e.to_addresses
      else if db_field_name = pys "cc_addresses" then e.cc_addresses
      else e.bcc_addresses
    match original with
    | none => .ok false
    | some s =>
      match c.json_loads s with
      | none => .ok false
      | some (.arr items) => check_address_list c items predicate (some rule_value)
      | some _ => .ok false
  else if db_field_name = pys "received_datetime" then
    _check_date_condition c e.received_datetime predicate rule_value now_utc
  else
    .ok false

/-- One iteration of evaluate_email's condition loop, producing the boolean appended
to `condition_results`: malformed conditions and unknown attributes yield false before
the try block; a raised RuleConditionError (or any exception) inside it is caught and
demoted to false. -/
def eval_condition (c : Collab) (e : Email) (condition : Condition) (now_utc : Int) : Bool :=
  if !(pyTruthy condition.field && pyTruthy condition.predicate && condition.value.isSome) then
    false
  else
    let field_name_from_rule := condition.field.getD []
    let predicate := condition.predicate.getD []
    let rule_value := condition.value.getD []
    let db_field_name := resolve_field_name field_name_from_rule
    if !email_hasattr db_field_name then
      false
    else
      match eval_condition_body c e db_field_name predicate rule_value now_utc with
      | .ok b => b
      | .error _ => false

/-- rule_engine.evaluate_email: empty conditions never match; otherwise the collected
per-condition booleans are aggregated by the rule's conditions_predicate ('all' /
'any', anything else falling back to 'all' with a warning). -/
def evaluate_email (c : Collab) (email_db_object : Email) (rule : Rule) (now_utc : Int) : Bool :=
  if rule.conditions.isEmpty then
    false
  else
    let conditions_predicate := pyLower (rule.conditions_predicate.getD (pys "all"))
    let condition_results :=
      rule.conditions.map (fun condition => eval_condition c email_db_object condition now_utc)
    if condition_results.isEmpty then false
    else if conditions_predicate = pys "all" then condition_results.all id
    else if conditions_predicate = pys "any" then condition_results.any id
    else condition_results.all id

/-- One action of a rule (a JSON object; absent keys are `none`). -/
structure RuleAction where
  type : Option PyStr
  mailbox : Option PyStr
  label_name : Option PyStr

/-- The standard-label table of gmail_client.get_label_id_by_name: well-known names
(lowercased) mapped to their provider identifiers without a remote call. -/
def standard_labels : List (PyStr × PyStr) :=
  [(pys "inbox", pys "INBOX"), (pys "spam", pys "SPAM"), (pys "trash", pys "TRASH"),
   (pys "unread", pys "UNREAD"), (pys "important", pys "IMPORTANT"),
   (pys "draft", pys "DRAFT"), (pys "sent", pys "SENT"), (pys "starred", pys "STARRED"),
   (pys "category_personal", pys "CATEGORY_PERSONAL"),
   (pys "category_social", pys "CATEGORY_SOCIAL"),
   (pys "category_promotions", pys "CATEGORY_PROMOTIONS"),
   (pys "category_updates", pys "CATEGORY_UPDATES"),
   (pys "category_forums", pys "CATEGORY_FORUMS")]

/-- gmail_client.get_label_id_by_name: empty/absent name resolves to None; a standard
name resolves through the fixed table; any other name goes to the remote labels.list
lookup, modelled by the collaborator function `remote` (`none` covering both "label
not found" and an API error). The name→ID cache is omitted: it only memoises these
same results. -/
def get_label_id_by_name (remote : PyStr → Option PyStr) (label_name : Option PyStr) :
    Option PyStr :=
  if !pyTruthy label_name then none
  else
    let name := label_name.getD []
    match standard_labels.find? (fun p => p.1 == pyLower name) with
    | some p => some p.2
    | none => remote name

/-- One iteration of apply_actions' loop over the rule's actions, threading the
(add_label_ids, remove_label_ids) accumulator lists. Skipped actions (missing
parameters, unresolvable names, unknown types) leave the accumulator untouched.
The source's `moved` flag is written but never read, so it is not modelled. -/
def action_step (remote : PyStr → Option PyStr) (acc : List PyStr × List PyStr)
    (action : RuleAction) : List PyStr × List PyStr :=
  let action_type := pyLower (action.type.getD [])
  if action_type = pys "mark_as_read" then
    (acc.1, acc.2 ++ [pys "UNREAD"])
  else if action_type = pys "mark_as_unread" then
    (acc.1 ++ [pys "UNREAD"], acc.2)
  else if action_type = pys "move_message" then
    if !pyTruthy action.mailbox then acc
    else
      let target_mailbox_name := action.mailbox.getD []
      if pyUpper target_mailbox_name = pys "ARCHIVE" then
        (acc.1, acc.2 ++ [pys "INBOX"])
      else
        match get_label_id_by_name remote action.mailbox with
        | some target_label_id => (acc.1 ++ [target_label_id], acc.2 ++ [pys "INBOX"])
        | none => acc
  else if action_type = pys "add_label" then
    if !pyTruthy action.label_name then acc
    else
      match get_label_id_by_name remote action.label_name with
      | some label_id => (acc.1 ++ [label_id], acc.2)
      | none => acc
  else
    acc

/-- The raw (add_label_ids, remove_label_ids) lists apply_actions accumulates before
deduplication. -/
def plan_label_lists (remote : PyStr → Option PyStr) (actions : List RuleAction) :
    List PyStr × List PyStr :=
  actions.foldl (action_step remote) ([], [])

/-- The deduplicated, conflict-resolved (labelsToAdd, labelsToRemove) pair apply_actions
hands to modify_message_labels: `list(set(...))` deduplication, the remove-wins loop
over the intersection, then the INBOX special case (erase INBOX from the remove set
when it sits in both sets), guarded — like the source — by at least one set being
nonempty. The mailbox API call itself is issued only in that nonempty case. -/
def apply_actions_sets (remote : PyStr → Option PyStr) (actions : List RuleAction) :
    Finset PyStr × Finset PyStr :=
  let planned := plan_label_lists remote actions
  let add0 : Finset PyStr := planned.1.toFinset
  let remove_label_ids : Finset PyStr := planned.2.toFinset
  let common_labels := add0 ∩ remove_label_ids
  let add_label_ids := add0 \ common_labels
  if add_label_ids ≠ ∅ ∨ remove_label_ids ≠ ∅ then
    match get_label_id_by_name remote (some (pys "INBOX")) with
    | some inbox_id =>
      if inbox_id ∈ add_label_ids ∧ inbox_id ∈ remove_label_ids then
        (add_label_ids, remove_label_ids.erase inbox_id)
      else (add_label_ids, remove_label_ids)
    | none => (add_label_ids, remove_label_ids)
  else (add_label_ids, remove_label_ids)

/-! Supporting lemmas about the embedded string primitives. -/

theorem lowerNat_lowerNat (n : Nat) : lowerNat (lowerNat n) = lowerNat n := by
  unfold lowerNat
  split
  · split <;> omega
  · rfl

theorem pyIsSpace_lowerNat (n : Nat) : pyIsSpace (lowerNat n) = pyIsSpace n := by
  unfold lowerNat pyIsSpace
  split
  · next h =>
    rw [Bool.eq_iff_iff]
    simp only [Bool.or_eq_true, beq_iff_eq]
    omega
  · rfl

theorem pyLower_pyLower (s : PyStr) : pyLower (pyLower s) = pyLower s := by
  unfold pyLower
  rw [List.map_map]
  exact List.map_congr_left (fun n _ => lowerNat_lowerNat n)

theorem dropWhile_append_of_forall {p : Nat → Bool} {pre l : List Nat}
    (h : ∀ x ∈ pre, p x = true) :
    List.dropWhile p (pre ++ l) = List.dropWhile p l := by
  induction pre with
  | nil => rfl
  | cons a as ih =>
    rw [List.cons_append, List.dropWhile_cons, if_pos (h a (List.mem_cons_self a as))]
    exact ih (fun x hx => h x (List.mem_cons_of_mem a hx))

theorem pyStrip_pad (s pre post : PyStr) (hpre : ∀ x ∈ pre, pyIsSpace x = true)
    (hpost : ∀ x ∈ post, pyIsSpace x = true) :
    pyStrip (pre ++ s ++ post) = pyStrip s := by
  unfold pyStrip
  rw [List.append_assoc, dropWhile_append_of_forall hpre]
  by_cases hs : List.dropWhile pyIsSpace s = []
  · have hall : ∀ x ∈ s ++ post, pyIsSpace x = true := by
      intro x hx
      rcases List.mem_append.mp hx with hx | hx
      · exact List.dropWhile_eq_nil_iff.mp hs x hx
      · exact hpost x hx
    rw [List.dropWhile_eq_nil_iff.mpr hall, hs]
  · rw [List.dropWhile_append, if_neg (by simpa [List.isEmpty_iff] using hs),
        List.reverse_append,
        dropWhile_append_of_forall (by intro x hx; exact hpost x (List.mem_reverse.mp hx))]

theorem normalize_pad (s pre post : PyStr) (hpre : ∀ x ∈ pre, pyIsSpace x = true)
    (hpost : ∀ x ∈ post, pyIsSpace x = true) :
    _normalize_string (some (pre ++ s ++ post)) = _normalize_string (some s) := by
  show pyStrip (pyLower (pre ++ s ++ post)) = pyStrip (pyLower s)
  unfold pyLower
  rw [List.map_append, List.map_append]
  exact pyStrip_pad _ _ _
    (by intro x hx
        rcases List.mem_map.mp hx with ⟨y, hy, rfl⟩
        rw [pyIsSpace_lowerNat]; exact hpre y hy)
    (by intro x hx
        rcases List.mem_map.mp hx with ⟨y, hy, rfl⟩
        rw [pyIsSpace_lowerNat]; exact hpost y hy)

theorem normalize_pyLower (s : PyStr) :
    _normalize_string (some (pyLower s)) = _normalize_string (some s) := by
  show pyStrip (pyLower (pyLower s)) = pyStrip (pyLower s)
  rw [pyLower_pyLower]

theorem pyInStr_nil (hay : PyStr) : pyInStr [] hay = true := by
  induction hay with
  | nil => rfl
  | cons c rest ih => simp [pyInStr, List.isPrefixOf]

theorem check_string_contains_pair (v rv : Option PyStr) :
    ∃ b : Bool, _check_string_condition v (pys "contains") rv = .ok b ∧
      _check_string_condition v (pys "does_not_contain") rv = .ok (!b) :=
  ⟨pyInStr (_normalize_string rv) (_normalize_string v), rfl, rfl⟩

theorem check_string_equals_pair (v rv : Option PyStr) :
    ∃ b : Bool, _check_string_condition v (pys "equals") rv = .ok b ∧
      _check_string_condition v (pys "does_not_equal") rv = .ok (!b) :=
  ⟨_normalize_string v == _normalize_string rv, rfl, rfl⟩

theorem check_string_four_ok (v rv : Option PyStr) (p : PyStr)
    (hp : p = pys "equals" ∨ p = pys "contains" ∨
          p = pys "does_not_equal" ∨ p = pys "does_not_contain") :
    ∃ b, _check_string_condition v p rv = .ok b := by
  rcases hp with rfl | rfl | rfl | rfl
  · exact ⟨_, rfl⟩
  · exact ⟨_, rfl⟩
  · obtain ⟨b, _, h⟩ := check_string_equals_pair v rv
    exact ⟨!b, h⟩
  · obtain ⟨b, _, h⟩ := check_string_contains_pair v rv
    exact ⟨!b, h⟩

theorem anyM_except_char {α ε : Type} (f : α → Except ε Bool) (l : List α)
    (hf : ∀ a ∈ l, ∃ b, f a = .ok b) :
    ∃ b, l.anyM f = .ok b ∧ (b = true ↔ ∃ a ∈ l, f a = .ok true) := by
  induction l with
  | nil => exact ⟨false, rfl, by simp⟩
  | cons a as ih =>
    obtain ⟨b, hb⟩ := hf a (List.mem_cons_self a as)
    obtain ⟨b', hb', hiff⟩ := ih (fun x hx => hf x (List.mem_cons_of_mem a hx))
    cases b with
    | true =>
      refine ⟨true, ?_, by simp only [true_iff]; exact ⟨a, List.mem_cons_self a as, hb⟩⟩
      show f a >>= _ = _
      rw [hb]; rfl
    | false =>
      refine ⟨b', ?_, ?_⟩
      · show f a >>= _ = _
        rw [hb]; exact hb'
      · rw [hiff]
        constructor
        · rintro ⟨x, hx, hfx⟩
          exact ⟨x, List.mem_cons_of_mem a hx, hfx⟩
        · rintro ⟨x, hx, hfx⟩
          rcases List.mem_cons.mp hx with rfl | hx
          · exact absurd hfx (by rw [hb]; simp)
          · exact ⟨x, hx, hfx⟩

theorem allM_except_char {α ε : Type} (f : α → Except ε Bool) (l : List α)
    (hf : ∀ a ∈ l, ∃ b, f a = .ok b) :
    ∃ b, l.allM f = .ok b ∧ (b = true ↔ ∀ a ∈ l, f a = .ok true) := by
  induction l with
  | nil => exact ⟨true, rfl, by simp⟩
  | cons a as ih =>
    obtain ⟨b, hb⟩ := hf a (List.mem_cons_self a as)
    obtain ⟨b', hb', hiff⟩ := ih (fun x hx => hf x (List.mem_cons_of_mem a hx))
    cases b with
    | false =>
      refine ⟨false, ?_, ?_⟩
      · show f a >>= _ = _
        rw [hb]; rfl
      · constructor
        · intro h; exact absurd h (by simp)
        · intro h
          exact absurd (h a (List.mem_cons_self a as)) (by rw [hb]; simp)
    | true =>
      refine ⟨b', ?_, ?_⟩
      · show f a >>= _ = _
        rw [hb]; exact hb'
      · rw [hiff]
        constructor
        · intro h x hx
          rcases List.mem_cons.mp hx with rfl | hx
          · exact hb
          · exact h x hx
        · intro h x hx
          exact h x (List.mem_cons_of_mem a hx)

/-! Concrete fixtures used by witness theorems. -/

/-- Collaborator stub: trivial external functions, enough to evaluate concrete runs. -/
def stub_collab : Collab :=
  { parseaddr := fun s => ([], s)
    json_loads := fun _ => none
    str_of := fun _ => []
    isoparse := fun _ => none
    sub_months := fun n _ => n }

/-- A concrete record. -/
def sample_email : Email :=
  { from_address := some (pys "HR Team <hr@tenmiles.com>")
    to_addresses := some (pys "[addresses]")
    cc_addresses := none
    bcc_addresses := none
    subject := some (pys "Your Interview Schedule")
    body_plain := some (pys "Details about your upcoming interview.")
    received_datetime := .dt 0 }

/-- A remote label lookup that never finds anything. -/
def remote_none : PyStr → Option PyStr := fun _ => none

/-! Claim theorems. -/

/-- C4: for every record and every rule whose conditions list is empty (an absent
list is loaded as `[]`), rule evaluation returns false regardless of the rule's
conditions predicate — an empty-conditions rule is never vacuously true. -/
theorem empty_conditions_rule_never_matches (c : Collab) (e : Email) (r : Rule) (now_utc : Int)
    (h : r.conditions = []) : evaluate_email c e r now_utc = false := by
  unfold evaluate_email
  rw [h]
  rfl

theorem empty_conditions_rule_never_matches_witness :
    evaluate_email stub_collab sample_email ⟨none, some (pys "any"), []⟩ 0 = false :=
  empty_conditions_rule_never_matches stub_collab sample_email ⟨none, some (pys "any"), []⟩ 0 rfl

/-- C5: for every record timestamp `t` (a UTC instant), every `now` captured at
evaluation time and every integer `N` (the parsed rule value), `less_than_days(N)`
holds iff `t` is strictly more recent than `now − N` days, `greater_than_days(N)`
holds iff `t` is strictly older than `now − N` days, and a timestamp exactly `N`
days old satisfies neither predicate — both boundaries are exclusive. -/
theorem date_day_predicates_strict_boundaries (c : Collab) (t now_utc N : Int) (s : PyStr)
    (h : pyInt s = some N) :
    _check_date_condition c (.dt t) (pys "less_than_days") s now_utc
        = .ok (decide (now_utc - N * usPerDay < t)) ∧
    _check_date_condition c (.dt t) (pys "greater_than_days") s now_utc
        = .ok (decide (t < now_utc - N * usPerDay)) ∧
    (t = now_utc - N * usPerDay →
      _check_date_condition c (.dt t) (pys "less_than_days") s now_utc = .ok false ∧
      _check_date_condition c (.dt t) (pys "greater_than_days") s now_utc = .ok false) := by
  have h1 : _check_date_condition c (.dt t) (pys "less_than_days") s now_utc
      = .ok (decide (now_utc - N * usPerDay < t)) := by
    show _check_date_core c t (pys "less_than_days") s now_utc = _
    unfold _check_date_core
    rw [h]
    rfl
  have h2 : _check_date_condition c (.dt t) (pys "greater_than_days") s now_utc
      = .ok (decide (t < now_utc - N * usPerDay)) := by
    show _check_date_core c t (pys "greater_than_days") s now_utc = _
    unfold _check_date_core
    rw [h]
    rfl
  refine ⟨h1, h2, fun ht => ⟨?_, ?_⟩⟩
  · rw [h1, ht]; simp
  · rw [h2, ht]; simp

theorem date_day_predicates_strict_boundaries_witness :
    pyInt (pys "2") = some 2 ∧
    _check_date_condition stub_collab (.dt 0) (pys "less_than_days") (pys "2") (2 * usPerDay)
      = .ok false ∧
    _check_date_condition stub_collab (.dt 0) (pys "greater_than_days") (pys "2") (2 * usPerDay)
      = .ok false :=
  ⟨rfl, (date_day_predicates_strict_boundaries stub_collab 0 (2 * usPerDay) 2 (pys "2")
    rfl).2.2 (by ring)⟩

/-- C10: the `contains` predicate with an empty rule value is true for every record
string value (and `does_not_contain` with an empty rule value is false), because both
sides are normalized and the empty string is a substring of every string; hence a
well-formed condition `subject contains ""` matches every record. -/
theorem contains_empty_rule_value_matches_everything (v : Option PyStr) :
    _check_string_condition v (pys "contains") (some []) = .ok true ∧
    _check_string_condition v (pys "does_not_contain") (some []) = .ok false ∧
    (∀ (c : Collab) (e : Email) (now_utc : Int),
      eval_condition c e ⟨some (pys "subject"), some (pys "contains"), some []⟩ now_utc = true) := by
  have hc : ∀ w : Option PyStr,
      _check_string_condition w (pys "contains") (some []) = .ok true := by
    intro w
    show Except.ok (pyInStr (_normalize_string (some [])) (_normalize_string w)) = .ok true
    rw [show _normalize_string (some []) = [] from rfl, pyInStr_nil]
  refine ⟨hc v, ?_, ?_⟩
  · show Except.ok (!(pyInStr (_normalize_string (some [])) (_normalize_string v))) = .ok false
    rw [show _normalize_string (some []) = [] from rfl, pyInStr_nil]
    rfl
  · intro c e now_utc
    show (match eval_condition_body c e (pys "subject") (pys "contains") [] now_utc with
          | .ok b => b
          | .error _ => false) = true
    have hbody : eval_condition_body c e (pys "subject") (pys "contains") [] now_utc = .ok true := by
      show _check_string_condition e.subject (pys "contains") (some []) = .ok true
      exact hc e.subject
    rw [hbody]

/-- C7: for every pair of values, `contains`/`does_not_contain` return exactly
opposite booleans, and so do `equals`/`does_not_equal`; all four predicates compare
the two strings only through `_normalize_string` (lowercase, surrounding whitespace
stripped, applied to both sides), so any change of letter case or surrounding
whitespace on either side — which leaves the normalized form unchanged — leaves
every predicate's result unchanged. -/
theorem string_predicate_negation_pairs_and_normalization (v rv : Option PyStr) :
    (∃ b : Bool, _check_string_condition v (pys "contains") rv = .ok b ∧
      _check_string_condition v (pys "does_not_contain") rv = .ok (!b)) ∧
    (∃ b : Bool, _check_string_condition v (pys "equals") rv = .ok b ∧
      _check_string_condition v (pys "does_not_equal") rv = .ok (!b)) ∧
    (∀ (p : PyStr) (v' rv' : Option PyStr),
      _normalize_string v' = _normalize_string v →
      _normalize_string rv' = _normalize_string rv →
      _check_string_condition v' p rv' = _check_string_condition v p rv) ∧
    (∀ (s pre post : PyStr), (∀ x ∈ pre, pyIsSpace x = true) →
      (∀ x ∈ post, pyIsSpace x = true) →
      _normalize_string (some (pre ++ pyLower s ++ post)) = _normalize_string (some s)) := by
  refine ⟨check_string_contains_pair v rv, check_string_equals_pair v rv, ?_, ?_⟩
  · intro p v' rv' h1 h2
    simp only [_check_string_condition, h1, h2]
  · intro s pre post h1 h2
    rw [normalize_pad (pyLower s) pre post h1 h2, normalize_pyLower]

theorem string_predicate_negation_pairs_and_normalization_witness :
    _check_string_condition (some (pys " INTERVIEW ")) (pys "contains") (some (pys "View "))
      = _check_string_condition (some (pys "interview")) (pys "contains") (some (pys "view")) ∧
    _normalize_string (some (pys "  " ++ pyLower (pys "Interview") ++ pys " "))
      = _normalize_string (some (pys "Interview")) :=
  ⟨(string_predicate_negation_pairs_and_normalization (some (pys "interview"))
      (some (pys "view"))).2.2.1 (pys "contains") (some (pys " INTERVIEW "))
      (some (pys "View ")) (by decide) (by decide),
   (string_predicate_negation_pairs_and_normalization (some (pys "interview"))
      (some (pys "view"))).2.2.2 (pys "Interview") (pys "  ") (pys " ")
      (by decide) (by decide)⟩

theorem check_addr_any (c : Collab) (items : List Json) (rv : Option PyStr) (p : PyStr)
    (hp : p = pys "equals" ∨ p = pys "contains") :
    check_address_list c items p rv = .ok true ↔
      ∃ a ∈ items.map (parse_address_item c),
        _check_string_condition (some a) p rv = .ok true := by
  have hdef : check_address_list c items p rv
      = (items.map (parse_address_item c)).anyM
          (fun a => _check_string_condition (some a) p rv) := by
    rcases hp with rfl | rfl <;> rfl
  obtain ⟨b, hb, hiff⟩ := anyM_except_char
    (fun a => _check_string_condition (some a) p rv) (items.map (parse_address_item c))
    (fun a _ => check_string_four_ok (some a) rv p
      (by rcases hp with rfl | rfl
          exacts [Or.inl rfl, Or.inr (Or.inl rfl)]))
  rw [hdef, hb]
  simp only [Except.ok.injEq]
  exact hiff

theorem check_addr_all (c : Collab) (items : List Json) (rv : Option PyStr) (p : PyStr)
    (hp : p = pys "does_not_equal" ∨ p = pys "does_not_contain") :
    check_address_list c items p rv = .ok true ↔
      ∀ a ∈ items.map (parse_address_item c),
        _check_string_condition (some a) p rv = .ok true := by
  have hdef : check_address_list c items p rv
      = (items.map (parse_address_item c)).allM
          (fun a => _check_string_condition (some a) p rv) := by
    rcases hp with rfl | rfl <;> rfl
  obtain ⟨b, hb, hiff⟩ := allM_except_char
    (fun a => _check_string_condition (some a) p rv) (items.map (parse_address_item c))
    (fun a _ => check_string_four_ok (some a) rv p
      (by rcases hp with rfl | rfl
          exacts [Or.inr (Or.inr (Or.inl rfl)), Or.inr (Or.inr (Or.inr rfl))]))
  rw [hdef, hb]
  simp only [Except.ok.injEq]
  exact hiff

theorem check_addr_four_ok (c : Collab) (items : List Json) (rv : Option PyStr) (p : PyStr)
    (hp : p = pys "equals" ∨ p = pys "contains" ∨
          p = pys "does_not_equal" ∨ p = pys "does_not_contain") :
    ∃ b, check_address_list c items p rv = .ok b := by
  rcases hp with hp | hp | hp | hp
  · obtain ⟨b, hb, _⟩ := anyM_except_char
      (fun a => _check_string_condition (some a) p rv) (items.map (parse_address_item c))
      (fun a _ => check_string_four_ok (some a) rv p (Or.inl hp))
    subst hp
    exact ⟨b, by rw [show check_address_list c items (pys "equals") rv
      = (items.map (parse_address_item c)).anyM
          (fun a => _check_string_condition (some a) (pys "equals") rv) from rfl]; exact hb⟩
  · obtain ⟨b, hb, _⟩ := anyM_except_char
      (fun a => _check_string_condition (some a) p rv) (items.map (parse_address_item c))
      (fun a _ => check_string_four_ok (some a) rv p (Or.inr (Or.inl hp)))
    subst hp
    exact ⟨b, by rw [show check_address_list c items (pys "contains") rv
      = (items.map (parse_address_item c)).anyM
          (fun a => _check_string_condition (some a) (pys "contains") rv) from rfl]; exact hb⟩
  · obtain ⟨b, hb, _⟩ := allM_except_char
      (fun a => _check_string_condition (some a) p rv) (items.map (parse_address_item c))
      (fun a _ => check_string_four_ok (some a) rv p (Or.inr (Or.inr (Or.inl hp))))
    subst hp
    exact ⟨b, by rw [show check_address_list c items (pys "does_not_equal") rv
      = (items.map (parse_address_item c)).allM
          (fun a => _check_string_condition (some a) (pys "does_not_equal") rv) from rfl]; exact hb⟩
  · obtain ⟨b, hb, _⟩ := allM_except_char
      (fun a => _check_string_condition (some a) p rv) (items.map (parse_address_item c))
      (fun a _ => check_string_four_ok (some a) rv p (Or.inr (Or.inr (Or.inr hp))))
    subst hp
    exact ⟨b, by rw [show check_address_list c items (pys "does_not_contain") rv
      = (items.map (parse_address_item c)).allM
          (fun a => _check_string_condition (some a) (pys "does_not_contain") rv) from rfl]; exact hb⟩

theorem check_dne_iff_not_eq (a rv : Option PyStr) :
    _check_string_condition a (pys "does_not_equal") rv = .ok true ↔
      ¬ _check_string_condition a (pys "equals") rv = .ok true := by
  obtain ⟨b, he, hne⟩ := check_string_equals_pair a rv
  rw [he, hne]
  cases b <;> simp

theorem check_dnc_iff_not_contains (a rv : Option PyStr) :
    _check_string_condition a (pys "does_not_contain") rv = .ok true ↔
      ¬ _check_string_condition a (pys "contains") rv = .ok true := by
  obtain ⟨b, he, hne⟩ := check_string_contains_pair a rv
  rw [he, hne]
  cases b <;> simp

/-- C2: over a record whose list-valued address field parses (via json.loads) to a
list of items, whose elements are reduced to bare addresses `L`: a condition with
predicate equals/contains is true iff some element of `L` satisfies the predicate,
and a condition with predicate does_not_equal/does_not_contain is true iff every
element of `L` satisfies the negated predicate — equivalently, iff no element
matches the positive form. The last conjunct ties this to the full condition
evaluation of such a record. -/
theorem address_list_condition_quantifiers (c : Collab) (items : List Json) (rv : PyStr) :
    (check_address_list c items (pys "equals") (some rv) = .ok true ↔
      ∃ a ∈ items.map (parse_address_item c),
        _check_string_condition (some a) (pys "equals") (some rv) = .ok true) ∧
    (check_address_list c items (pys "contains") (some rv) = .ok true ↔
      ∃ a ∈ items.map (parse_address_item c),
        _check_string_condition (some a) (pys "contains") (some rv) = .ok true) ∧
    (check_address_list c items (pys "does_not_equal") (some rv) = .ok true ↔
      ∀ a ∈ items.map (parse_address_item c),
        _check_string_condition (some a) (pys "does_not_equal") (some rv) = .ok true) ∧
    (check_address_list c items (pys "does_not_equal") (some rv) = .ok true ↔
      ¬ ∃ a ∈ items.map (parse_address_item c),
        _check_string_condition (some a) (pys "equals") (some rv) = .ok true) ∧
    (check_address_list c items (pys "does_not_contain") (some rv) = .ok true ↔
      ∀ a ∈ items.map (parse_address_item c),
        _check_string_condition (some a) (pys "does_not_contain") (some rv) = .ok true) ∧
    (check_address_list c items (pys "does_not_contain") (some rv) = .ok true ↔
      ¬ ∃ a ∈ items.map (parse_address_item c),
        _check_string_condition (some a) (pys "contains") (some rv) = .ok true) ∧
    (∀ (e : Email) (now_utc : Int) (s : PyStr) (p : PyStr),
      e.to_addresses = some s →
      c.json_loads s = some (.arr items) →
      (p = pys "equals" ∨ p = pys "contains" ∨
       p = pys "does_not_equal" ∨ p = pys "does_not_contain") →
      (eval_condition c e ⟨some (pys "to"), some p, some rv⟩ now_utc = true ↔
        check_address_list c items p (some rv) = .ok true)) := by
  have hdne := check_addr_all c items (some rv) (pys "does_not_equal") (Or.inl rfl)
  have hdnc := check_addr_all c items (some rv) (pys "does_not_contain") (Or.inr rfl)
  refine ⟨check_addr_any c items (some rv) (pys "equals") (Or.inl rfl),
          check_addr_any c items (some rv) (pys "contains") (Or.inr rfl),
          hdne, ?_, hdnc, ?_, ?_⟩
  · rw [hdne]
    simp only [not_exists, not_and]
    constructor
    · intro h a ha
      exact (check_dne_iff_not_eq (some a) (some rv)).mp (h a ha)
    · intro h a ha
      exact (check_dne_iff_not_eq (some a) (some rv)).mpr (h a ha)
  · rw [hdnc]
    simp only [not_exists, not_and]
    constructor
    · intro h a ha
      exact (check_dnc_iff_not_contains (some a) (some rv)).mp (h a ha)
    · intro h a ha
      exact (check_dnc_iff_not_contains (some a) (some rv)).mpr (h a ha)
  · intro e now_utc s p hs hjson hp
    have hbody : eval_condition_body c e (pys "to_addresses") p rv now_utc
        = check_address_list c items p (some rv) := by
      show (match e.to_addresses with
            | none => (Except.ok false : Except RuleConditionError Bool)
            | some s' =>
              match c.json_loads s' with
              | none => .ok false
              | some (.arr its) => check_address_list c its p (some rv)
              | some _ => .ok false) = _
      rw [hs]
      show (match c.json_loads s with
            | none => (Except.ok false : Except RuleConditionError Bool)
            | some (.arr its) => check_address_list c its p (some rv)
            | some _ => .ok false) = _
      rw [hjson]
    have heval : eval_condition c e ⟨some (pys "to"), some p, some rv⟩ now_utc
        = match eval_condition_body c e (pys "to_addresses") p rv now_utc with
          | .ok b => b
          | .error _ => false := by
      rcases hp with rfl | rfl | rfl | rfl <;> rfl
    obtain ⟨b, hb⟩ := check_addr_four_ok c items (some rv) p hp
    rw [heval, hbody, hb]
    cases b <;> simp

/-- Concrete parsed address list used by witnesses. -/
def sample_items : List Json := [.str (pys "user1@test.com"), .str (pys "user2@example.com")]

/-- Collaborator whose json.loads yields `sample_items`. -/
def json_collab : Collab :=
  { parseaddr := fun s => ([], s)
    json_loads := fun _ => some (.arr sample_items)
    str_of := fun _ => []
    isoparse := fun _ => none
    sub_months := fun n _ => n }

theorem address_list_condition_quantifiers_witness :
    eval_condition json_collab sample_email
        ⟨some (pys "to"), some (pys "equals"), some (pys "user1@test.com")⟩ 0 = true ↔
      check_address_list json_collab sample_items (pys "equals")
        (some (pys "user1@test.com")) = .ok true :=
  (address_list_condition_quantifiers json_collab sample_items
      (pys "user1@test.com")).2.2.2.2.2.2 sample_email 0 (pys "[addresses]")
      (pys "equals") rfl rfl (Or.inl rfl)

/-- C3: a typed error raised while evaluating one condition is caught at the
condition level and demoted to false for that condition only; the rule's result is
still the plain ALL/ANY aggregation of every condition's (total, never-throwing)
boolean, so sibling conditions and the rule keep evaluating and no exception
escapes the evaluator — `eval_condition` and `evaluate_email` are total functions. -/
theorem condition_error_demoted_rule_continues (c : Collab) (e : Email) (now_utc : Int)
    (r : Rule) (cond : Condition) (err : RuleConditionError)
    (hmem : cond ∈ r.conditions)
    (hwf : (pyTruthy cond.field && pyTruthy cond.predicate && cond.value.isSome) = true)
    (herr : eval_condition_body c e (resolve_field_name (cond.field.getD []))
        (cond.predicate.getD []) (cond.value.getD []) now_utc = .error err) :
    eval_condition c e cond now_utc = false ∧
    evaluate_email c e r now_utc =
      (if pyLower (r.conditions_predicate.getD (pys "all")) = pys "any" then
        (r.conditions.map (fun cd => eval_condition c e cd now_utc)).any id
      else
        (r.conditions.map (fun cd => eval_condition c e cd now_utc)).all id) := by
  constructor
  · unfold eval_condition
    rw [if_neg (by rw [hwf]; simp)]
    by_cases hattr : email_hasattr (resolve_field_name (cond.field.getD [])) = true
    · rw [if_neg (by rw [hattr]; simp), herr]
    · rw [if_pos (by simp [hattr])]
  · unfold evaluate_email
    rw [if_neg (by simp [List.isEmpty_iff, List.ne_nil_of_mem hmem]),
        if_neg (by simp [List.isEmpty_iff, List.ne_nil_of_mem hmem])]
    by_cases hall : pyLower (r.conditions_predicate.getD (pys "all")) = pys "all"
    · rw [if_pos hall, if_neg (by rw [hall]; decide)]
    · rw [if_neg hall]

/-- A malformed-predicate condition used by the C3 witness. -/
def sample_bad_condition : Condition := ⟨some (pys "subject"), some (pys "boom"), some (pys "x")⟩

/-- A two-condition ANY rule whose first condition raises, used by the C3 witness. -/
def sample_rule : Rule :=
  ⟨none, some (pys "any"),
   [sample_bad_condition, ⟨some (pys "subject"), some (pys "contains"), some []⟩]⟩

theorem condition_error_demoted_rule_continues_witness :
    eval_condition stub_collab sample_email sample_bad_condition 0 = false ∧
    evaluate_email stub_collab sample_email sample_rule 0 =
      (if pyLower (sample_rule.conditions_predicate.getD (pys "all")) = pys "any" then
        (sample_rule.conditions.map (fun cd => eval_condition stub_collab sample_email cd 0)).any id
      else
        (sample_rule.conditions.map (fun cd => eval_condition stub_collab sample_email cd 0)).all id) :=
  condition_error_demoted_rule_continues stub_collab sample_email 0 sample_rule
    sample_bad_condition ⟨"Unsupported string predicate"⟩
    (List.mem_cons_self _ _) rfl rfl

/-- C6: for every action list, the mutation intent produced after deduplication and
conflict resolution has disjoint add and remove sets — no label identifier is both
added and removed in the intent handed to the mailbox API. -/
theorem planner_intent_sets_disjoint (remote : PyStr → Option PyStr)
    (actions : List RuleAction) :
    (apply_actions_sets remote actions).1 ∩ (apply_actions_sets remote actions).2 = ∅ := by
  unfold apply_actions_sets
  set A := (plan_label_lists remote actions).1.toFinset with hA
  set R := (plan_label_lists remote actions).2.toFinset with hR
  have base : ∀ R' : Finset PyStr, R' ⊆ R → (A \ (A ∩ R)) ∩ R' = ∅ := by
    intro R' hsub
    rw [Finset.eq_empty_iff_forall_not_mem]
    intro x hx
    rw [Finset.mem_inter, Finset.mem_sdiff, Finset.mem_inter] at hx
    exact hx.1.2 ⟨hx.1.1, hsub hx.2⟩
  dsimp only
  split
  · split
    · split
      · exact base _ (Finset.erase_subset _ _)
      · exact base _ (Finset.Subset.refl R)
    · exact base _ (Finset.Subset.refl R)
  · exact base _ (Finset.Subset.refl R)

theorem get_label_id_inbox (remote : PyStr → Option PyStr) :
    get_label_id_by_name remote (some (pys "INBOX")) = some (pys "INBOX") := rfl

/-- C8: a matched rule whose action list is a single move_message action with a
mailbox name equal to "ARCHIVE" up to case produces the intent that removes only the
INBOX label and adds nothing, for any remote label resolver. -/
theorem move_to_archive_removes_inbox_only (remote : PyStr → Option PyStr) (m : PyStr)
    (h : pyUpper m = pys "ARCHIVE") :
    apply_actions_sets remote [⟨some (pys "move_message"), some m, none⟩]
      = (∅, {pys "INBOX"}) := by
  have hm : ¬((!pyTruthy (some m)) = true) := by
    cases m with
    | nil => exact absurd h (by decide)
    | cons a as => simp [pyTruthy]
  have hstep : action_step remote ([], []) ⟨some (pys "move_message"), some m, none⟩
      = ([], [pys "INBOX"]) := by
    unfold action_step
    dsimp only [Option.getD_some]
    rw [if_neg (by decide), if_neg (by decide), if_pos (by decide), if_neg hm, if_pos h]
    rfl
  have hplan : plan_label_lists remote [⟨some (pys "move_message"), some m, none⟩]
      = ([], [pys "INBOX"]) := by
    unfold plan_label_lists
    rw [List.foldl_cons, List.foldl_nil, hstep]
  unfold apply_actions_sets
  rw [hplan, get_label_id_inbox remote]
  decide

theorem move_to_archive_removes_inbox_only_witness :
    apply_actions_sets remote_none [⟨some (pys "move_message"), some (pys "Archive"), none⟩]
      = (∅, {pys "INBOX"}) :=
  move_to_archive_removes_inbox_only remote_none (pys "Archive") rfl

/-- C1 (divergence witness): a matched rule whose single action is move_message with
mailbox "INBOX" resolves INBOX into both the add and the remove list, but the
remove-wins pass strips INBOX from the add set before the INBOX add-wins check runs,
so that check never fires: the resulting intent has INBOX in labelsToRemove and an
empty labelsToAdd — not the other way around — for any remote label resolver. -/
theorem move_to_inbox_still_removes_inbox (remote : PyStr → Option PyStr) :
    apply_actions_sets remote [⟨some (pys "move_message"), some (pys "INBOX"), none⟩]
      = (∅, {pys "INBOX"}) := by
  have hplan : plan_label_lists remote [⟨some (pys "move_message"), some (pys "INBOX"), none⟩]
      = ([pys "INBOX"], [pys "INBOX"]) := rfl
  unfold apply_actions_sets
  rw [hplan, get_label_id_inbox remote]
  decide

/-- C9: an action that cannot be carried out — a move_message or add_label whose
label name the resolver cannot map to an identifier, or an action of unknown type —
contributes nothing to the planned add/remove lists and the remaining actions are
processed exactly as if it were absent; the plan is never aborted. -/
theorem unperformable_action_skipped (remote : PyStr → Option PyStr)
    (pre post : List RuleAction) (a : RuleAction)
    (h : (pyLower (a.type.getD []) = pys "move_message" ∧ pyTruthy a.mailbox = true ∧
            pyUpper (a.mailbox.getD []) ≠ pys "ARCHIVE" ∧
            get_label_id_by_name remote a.mailbox = none) ∨
         (pyLower (a.type.getD []) = pys "add_label" ∧ pyTruthy a.label_name = true ∧
            get_label_id_by_name remote a.label_name = none) ∨
         (pyLower (a.type.getD []) ≠ pys "mark_as_read" ∧
          pyLower (a.type.getD []) ≠ pys "mark_as_unread" ∧
          pyLower (a.type.getD []) ≠ pys "move_message" ∧
          pyLower (a.type.getD []) ≠ pys "add_label")) :
    plan_label_lists remote (pre ++ a :: post) = plan_label_lists remote (pre ++ post) ∧
    apply_actions_sets remote (pre ++ a :: post) = apply_actions_sets remote (pre ++ post) := by
  have hstep : ∀ acc, action_step remote acc a = acc := by
    intro acc
    unfold action_step
    rcases h with ⟨h1, h2, h3, h4⟩ | ⟨h1, h2, h3⟩ | ⟨h1, h2, h3, h4⟩
    · rw [if_neg (by rw [h1]; decide), if_neg (by rw [h1]; decide), if_pos h1,
          if_neg (by rw [h2]; decide), if_neg h3, h4]
    · rw [if_neg (by rw [h1]; decide), if_neg (by rw [h1]; decide),
          if_neg (by rw [h1]; decide), if_pos h1, if_neg (by rw [h2]; decide), h3]
    · rw [if_neg h1, if_neg h2, if_neg h3, if_neg h4]
  have hplan : plan_label_lists remote (pre ++ a :: post)
      = plan_label_lists remote (pre ++ post) := by
    unfold plan_label_lists
    rw [List.foldl_append, List.foldl_append, List.foldl_cons, hstep]
  exact ⟨hplan, by unfold apply_actions_sets; rw [hplan]⟩

/-- An unknown-type action used by the C9 witness. -/
def frob_action : RuleAction := ⟨some (pys "snooze"), none, none⟩

/-- A mark_as_read action used by the C9 witness. -/
def read_action : RuleAction := ⟨some (pys "mark_as_read"), none, none⟩

theorem unperformable_action_skipped_witness :
    plan_label_lists remote_none ([read_action] ++ frob_action :: [])
      = plan_label_lists remote_none ([read_action] ++ []) ∧
    apply_actions_sets remote_none ([read_action] ++ frob_action :: [])
      = apply_actions_sets remote_none ([read_action] ++ []) :=
  unperformable_action_skipped remote_none [read_action] [] frob_action
    (Or.inr (Or.inr (by refine ⟨?_, ?_, ?_, ?_⟩ <;> decide)))
